import Mathlib

set_option maxRecDepth 100000

/-!
Verification development for the CabinetSense wiki archiver
(`scrap_pdf.py`, `scrap_wiki.py`).

The Python sources are embedded shallowly:

* pure helpers (`sanitize`, `is_internal`, `get_drive_direct_link`,
  `looks_like_pdf`, the slug/hash machinery) become Lean functions;
* the stateful crawl / download loops become explicit state-passing
  functions, with the network, the HTML-to-PDF renderer and the
  filesystem modelled as explicit oracles / state fields;
* library calls from the Python standard library (`urllib.parse`,
  `hashlib.sha1`, `re`, `base64`) are reimplemented faithfully for the
  fragments the scripts use.

Machine integers are `Nat` with explicit `% 2^32` where SHA-1 needs
32-bit wraparound.  Everything is executable, so concrete witnesses
evaluate with `decide` / `rfl`.
-/

namespace Scraper

/-! ### Byte/char utilities -/

/-- Bytes of an ASCII string, as the UTF-8 encoding `url.encode()`
produces for the ASCII URLs this program handles. -/
def strBytes (s : String) : List Nat :=
  s.data.map Char.toNat

/-! ### SHA-1 (`hashlib.sha1`) -/

/-- Left rotation of a 32-bit word. -/
def rotl (s x : Nat) : Nat :=
  ((x <<< s) % 4294967296) + (x >>> (32 - s))

/-- Big-endian bytes of `n`, `k` bytes wide. -/
def beBytes (k n : Nat) : List Nat :=
  (List.range k).map (fun i => (n >>> (8 * (k - 1 - i))) % 256)

/-- SHA-1 padding: append `0x80`, zeros to 56 mod 64, then the 64-bit
big-endian bit length. -/
def sha1pad (msg : List Nat) : List Nat :=
  let len := msg.length
  let zeros := (120 - ((len + 1) % 64)) % 64
  msg ++ [128] ++ List.replicate zeros 0 ++ beBytes 8 (8 * len)

/-- Split a byte list into 64-byte blocks (fuel-driven structural
recursion; call with fuel ≥ length). -/
def chunks64 : Nat → List Nat → List (List Nat)
  | 0, _ => []
  | _ + 1, [] => []
  | fuel + 1, l => l.take 64 :: chunks64 fuel (l.drop 64)

/-- Group 4 big-endian bytes into one 32-bit word, 16 words per block. -/
def toWords : Nat → List Nat → List Nat
  | 0, _ => []
  | _ + 1, [] => []
  | fuel + 1, l =>
      (l.take 4).foldl (fun acc b => acc * 256 + b) 0 :: toWords fuel (l.drop 4)

/-- Extend 16 message-schedule words to 80. -/
def extendWords (ws : List Nat) : List Nat :=
  (List.range 64).foldl
    (fun acc _ =>
      let n := acc.length
      acc ++ [rotl 1
        ((((acc.getD (n - 3) 0) ^^^ (acc.getD (n - 8) 0)) ^^^
          (acc.getD (n - 14) 0)) ^^^ (acc.getD (n - 16) 0))])
    ws

/-- Round function `f_t`. -/
def sha1f (t b c d : Nat) : Nat :=
  if t < 20 then (b &&& c) ||| ((4294967295 ^^^ b) &&& d)
  else if t < 40 then (b ^^^ c) ^^^ d
  else if t < 60 then ((b &&& c) ||| (b &&& d)) ||| (c &&& d)
  else (b ^^^ c) ^^^ d

/-- Round constant `K_t`. -/
def sha1k (t : Nat) : Nat :=
  if t < 20 then 1518500249
  else if t < 40 then 1859775393
  else if t < 60 then 2400959708
  else 3395469782

/-- One SHA-1 compression round. -/
def sha1round (st : Nat × Nat × Nat × Nat × Nat) (tw : Nat × Nat) :
    Nat × Nat × Nat × Nat × Nat :=
  match st, tw with
  | (a, b, c, d, e), (t, w) =>
    ((rotl 5 a + sha1f t b c d + e + sha1k t + w) % 4294967296,
     a, rotl 30 b, c, d)

/-- Process one 64-byte block. -/
def sha1block (h : Nat × Nat × Nat × Nat × Nat) (block : List Nat) :
    Nat × Nat × Nat × Nat × Nat :=
  match h with
  | (h0, h1, h2, h3, h4) =>
    let ws := extendWords (toWords 16 block)
    match ((List.range 80).zip ws).foldl sha1round (h0, h1, h2, h3, h4) with
    | (a, b, c, d, e) =>
      ((h0 + a) % 4294967296, (h1 + b) % 4294967296, (h2 + c) % 4294967296,
       (h3 + d) % 4294967296, (h4 + e) % 4294967296)

/-- Lowercase hex digit. -/
def hexDigit (n : Nat) : Char :=
  if n < 10 then Char.ofNat (48 + n) else Char.ofNat (87 + n)

/-- The 8 lowercase hex characters of a 32-bit word, big-endian. -/
def hex8 (n : Nat) : List Char :=
  (List.range 8).map (fun i => hexDigit ((n >>> (4 * (7 - i))) % 16))

/-- SHA-1 digest of a byte list, as a 40-char lowercase hex string. -/
def sha1hexBytes (msg : List Nat) : String :=
  let padded := sha1pad msg
  let st := (chunks64 (padded.length + 1) padded).foldl sha1block
    (1732584193, 4023233417, 2562383102, 271733878, 3285377520)
  String.mk (hex8 st.1 ++ hex8 st.2.1 ++ hex8 st.2.2.1 ++
    hex8 st.2.2.2.1 ++ hex8 st.2.2.2.2)

/-- Model of `hashlib.sha1(url.encode()).hexdigest()`. -/
def sha1hex (s : String) : String :=
  sha1hexBytes (strBytes s)

/-! ### `urllib.parse` fragments used by the scripts -/

/-- Characters allowed in a URL scheme after the first letter. -/
def isSchemeChar (c : Char) : Bool :=
  c.isAlphanum || c == '+' || c == '-' || c == '.'

/-- Split off a leading `scheme:` the way `urlparse` recognises one: a
nonempty run of scheme characters starting with a letter, followed by a
colon.  Returns the scheme (if any) and the remainder. -/
def schemeSplit (cs : List Char) : Option (List Char) × List Char :=
  let pre := cs.takeWhile isSchemeChar
  if pre.length > 0 && (pre.headD ' ').isAlpha &&
      (cs.getD pre.length ' ' == ':') then
    (some pre, cs.drop (pre.length + 1))
  else (none, cs)

/-- After the scheme, a remainder starting with `//` has a netloc part
running up to the next `/`, `?` or `#`; otherwise the netloc is empty.
Returns the netloc and the rest. -/
def netlocSplit (cs : List Char) : List Char × List Char :=
  match cs with
  | '/' :: '/' :: rest =>
      (rest.takeWhile (fun c => !(c == '/' || c == '?' || c == '#')),
       rest.dropWhile (fun c => !(c == '/' || c == '?' || c == '#')))
  | _ => ([], cs)

/-- Model of `urlparse(u).netloc`. -/
def urlNetloc (u : String) : String :=
  String.mk (netlocSplit (schemeSplit (u.data.takeWhile (· != '#'))).2).1

/-- Model of `urlparse(u).path`. -/
def urlPath (u : String) : String :=
  String.mk
    ((netlocSplit (schemeSplit (u.data.takeWhile (· != '#'))).2).2.takeWhile
      (· != '?'))

/-- Model of `urlparse(u).query`. -/
def urlQuery (u : String) : String :=
  String.mk
    (((netlocSplit (schemeSplit (u.data.takeWhile (· != '#'))).2).2.dropWhile
      (· != '?')).drop 1)

/-- Python `s.startswith(pre)`, on the underlying character list. -/
def pyStartsWith (s pre : String) : Bool :=
  s.data.take pre.data.length == pre.data

/-- Python `s.endswith(suf)`, on the underlying character list. -/
def pyEndsWith (s suf : String) : Bool :=
  s.data.reverse.take suf.data.length == suf.data.reverse

/-- Python `s.split('&')`. -/
def splitAmp : List Char → List (List Char)
  | [] => [[]]
  | c :: rest =>
    let r := splitAmp rest
    if c == '&' then [] :: r
    else (c :: r.headD []) :: r.tail

/-- Python `s.split('=', 1)` when an `=` is present: the part before the
first `=` and the part after it. -/
def splitEq1 (cs : List Char) : Option (List Char × List Char) :=
  match cs.dropWhile (· != '=') with
  | [] => none
  | _ :: v => some (cs.takeWhile (· != '='), v)

/-- The key/value pairs of `parse_qs`: entries split on `&`, each split
at its first `=`; entries with no `=` or an empty value are dropped
(default `keep_blank_values=False`).  Percent-decoding is omitted — the
ids this program extracts contain no escapes. -/
def qsPairs (q : String) : List (String × String) :=
  (splitAmp q.data).filterMap (fun kv =>
    match splitEq1 kv with
    | none => none
    | some (k, v) =>
        if v.isEmpty then none else some (String.mk k, String.mk v))

/-- Model of `parse_qs(q).get(key, [None])[0]`: first value bound to `key`. -/
def qsFirst (q key : String) : Option String :=
  (((qsPairs q).filter (fun p => p.1 == key)).head?).map (fun p => p.2)

/-- Model of `href.split('#')[0]` — strip the fragment. -/
def stripFrag (s : String) : String :=
  String.mk (s.data.takeWhile (· != '#'))

/-- Models `urllib.parse.urljoin` for the reference shapes this program
produces: empty href, absolute href (own scheme), scheme-relative
(`//host/...`), host-relative (`/path`), and plain relative (resolved
against the base URL's directory).  Dot-segment normalisation is
omitted — no claim depends on it. -/
def urljoin (base href : String) : String :=
  if href = "" then base
  else
    match (schemeSplit href.data).1 with
    | some _ => href
    | none =>
      let bScheme := String.mk ((schemeSplit base.data).1.getD [])
      match href.data with
      | '/' :: '/' :: _ => bScheme ++ ":" ++ href
      | '/' :: _ => bScheme ++ "://" ++ urlNetloc base ++ href
      | _ =>
        let bp := urlPath base
        let dir := String.mk ((bp.data.reverse.dropWhile (· != '/')).reverse)
        bScheme ++ "://" ++ urlNetloc base ++ dir ++ href

/-! ### `sanitize` (scrap_pdf.py lines 67–71) -/

/-- Python `str.strip("/")`: remove leading and trailing slashes. -/
def stripSlashes (s : String) : String :=
  String.mk (((s.data.dropWhile (· == '/')).reverse.dropWhile (· == '/')).reverse)

/-- Worker for `re.sub(r"[^A-Za-z0-9]+", "_", s)`: `inRun` records
whether we are inside a non-alphanumeric run already replaced. -/
def collapseAux : Bool → List Char → List Char
  | _, [] => []
  | inRun, c :: rest =>
    if c.isAlphanum then c :: collapseAux false rest
    else if inRun then collapseAux true rest
    else '_' :: collapseAux true rest

/-- Model of `re.sub(r"[^A-Za-z0-9]+", "_", s)`: collapse every maximal run of
non-alphanumeric characters to a single underscore. -/
def collapseNonAlnum (s : String) : String :=
  String.mk (collapseAux false s.data)

/-- Python string slicing `s[:n]`. -/
def pyTake (s : String) (n : Nat) : String :=
  String.mk (s.data.take n)

/-- Model of `sanitize(url, ext)`: slug of the stripped URL path (default
`"page"` when empty), an underscore, the first 8 hex characters of the
SHA-1 of the full URL, and the extension. -/
def sanitize (url ext : String) : String :=
  let name0 := collapseNonAlnum (stripSlashes (urlPath url))
  let name := if name0 = "" then "page" else name0
  name ++ "_" ++ pyTake (sha1hex url) 8 ++ "." ++ ext

/-! ### Release-link helpers (scrap_pdf.py lines 148–161) -/

/-- Characters matched by the regex class `[a-zA-Z0-9_-]`. -/
def isIdChar (c : Char) : Bool :=
  c.isAlphanum || c == '_' || c == '-'

/-- Model of `re.search(r'/d/([a-zA-Z0-9_-]+)', href)`: leftmost occurrence of
`/d/` followed by at least one id character; the captured group is the
maximal id-character run after it. -/
def findDId : List Char → Option String
  | [] => none
  | c :: rest =>
    if c == '/' then
      match rest with
      | 'd' :: '/' :: rest2 =>
        let run := rest2.takeWhile isIdChar
        if run.isEmpty then findDId rest else some (String.mk run)
      | _ => findDId rest
    else findDId rest

/-- Model of `get_drive_direct_link(href)`. -/
def get_drive_direct_link (href : String) : String :=
  let fileId : Option String :=
    match findDId href.data with
    | some i => some i
    | none => qsFirst (urlQuery href) "id"
  match fileId with
  | some i => "https://drive.google.com/uc?export=download&id=" ++ i
  | none => href

/-- Model of `looks_like_pdf(chunk)`: body bytes are modelled as strings of
byte-valued characters; PDF files start with `%PDF`. -/
def looks_like_pdf (chunk : String) : Bool :=
  pyStartsWith chunk "%PDF"

/-! ### Internal-link predicates -/

/-- Model of `is_internal` of scrap_pdf.py: no netloc, or netloc equal to the
root URL's netloc (the root URL is a module-level configuration value,
here a parameter). -/
def is_internal (rootUrl link : String) : Bool :=
  (urlNetloc link == "") || (urlNetloc link == urlNetloc rootUrl)

/-- Model of `is_internal` of scrap_wiki.py: no netloc, or netloc that *ends
with* `base_netloc` (= `urlparse(START_URL).netloc`, here a
parameter). -/
def is_internal_wiki (baseNetloc link : String) : Bool :=
  (urlNetloc link == "") || pyEndsWith (urlNetloc link) baseNetloc

/-! ### base64 (`base64.b64encode(...).decode('ascii')`) -/

/-- The base64 alphabet. -/
def b64Char (n : Nat) : Char :=
  if n < 26 then Char.ofNat (65 + n)
  else if n < 52 then Char.ofNat (97 + (n - 26))
  else if n < 62 then Char.ofNat (48 + (n - 52))
  else if n = 62 then '+' else '/'

/-- Encode byte triples to base64 quadruples, with `=` padding
(fuel-driven structural recursion; call with fuel ≥ length). -/
def b64Groups : Nat → List Nat → List Char
  | 0, _ => []
  | _ + 1, [] => []
  | _ + 1, [a] => [b64Char (a / 4), b64Char ((a % 4) * 16), '=', '=']
  | _ + 1, [a, b] =>
      [b64Char (a / 4), b64Char ((a % 4) * 16 + b / 16),
       b64Char ((b % 16) * 4), '=']
  | fuel + 1, a :: b :: c :: rest =>
      b64Char (a / 4) :: b64Char ((a % 4) * 16 + b / 16) ::
      b64Char ((b % 16) * 4 + c / 64) :: b64Char (c % 64) ::
      b64Groups fuel rest

/-- Model of `base64.b64encode(bytes).decode('ascii')`. -/
def base64encode (bytes : List Nat) : String :=
  String.mk (b64Groups (bytes.length + 1) bytes)

/-! ### Substring / case helpers -/

/-- Python `sub in s` (substring containment). -/
def containsSub (sub : List Char) : List Char → Bool
  | [] => sub.isEmpty
  | c :: rest => sub.isPrefixOf (c :: rest) || containsSub sub rest

/-- Python `s.lower()`, on the underlying character list. -/
def pyLower (s : String) : String :=
  String.mk (s.data.map Char.toLower)

/-! ### `clean_html` (scrap_pdf.py lines 75–101)

A parsed HTML document is modelled as the list of nodes that the
BeautifulSoup passes of `clean_html` touch (plus opaque text).  The
four passes act on disjoint node kinds, so they are expressed as one
`filterMap` over the node list. -/

/-- A node of the parsed document, as seen by `clean_html`:
`img` carries its optional `src` attribute (`find_all("img",
src=True)` skips `img` nodes without one); `stylesheetLink` is a
`link` with `rel="stylesheet"` and its `href`; `inputTag` carries the
optional `type` attribute; `text` is any other content. -/
inductive Node where
  | img (src : Option String)
  | script
  | noscript
  | comment (s : String)
  | stylesheetLink (href : String)
  | inputTag (ty : Option String)
  | text (s : String)
deriving DecidableEq, Repr

/-- Model of `BAD_HOSTS`. -/
def BAD_HOSTS : List String := ["fonts.googleapis.com", "gstatic.com"]

/-- The fate of one node under `clean_html`'s passes.  The shared
session's image fetches are the oracle `fetch`: `none` models any
failure (transport error or the non-2xx raised by `raise_for_status`),
`some (ctype?, body)` a success with the declared `Content-Type`
header and body bytes. -/
def cleanNode (fetch : String → Option (Option String × List Nat)) :
    Node → Option Node
  | .script => none
  | .noscript => none
  | .comment _ => none
  | .img none => some (.img none)
  | .img (some src) =>
      if pyStartsWith src "data:" then some (.img (some src))
      else
        match fetch src with
        | some (ctype, body) =>
            some (.img (some ("data:" ++ ctype.getD "image/png" ++
              ";base64," ++ base64encode body)))
        | none => none
  | .stylesheetLink href =>
      if BAD_HOSTS.any (fun h => containsSub h.data href.data) then none
      else some (.stylesheetLink href)
  | .inputTag ty =>
      if (ty.getD "text") ∈ (["text", "hidden", "checkbox"] : List String)
      then some (.inputTag ty)
      else some (.inputTag (some "text"))
  | .text s => some (.text s)

/-- Model of `clean_html(raw_html)`: the four passes (script/comment removal,
image inlining, font-stylesheet removal, input normalisation) act on
disjoint node kinds and are applied to every node of the document. -/
def clean_html (fetch : String → Option (Option String × List Nat))
    (doc : List Node) : List Node :=
  doc.filterMap (cleanNode fetch)

/-! ### Crawl controller of scrap_pdf.py (lines 104–144) -/

/-- A successfully fetched page: its parsed nodes (input to
`clean_html`), the `href`s of all its `a[href]` anchors in document
order (used by `crawl`), and the `href`s of its nav anchors (the
`soup.select("nav a[href], div.docs-nav a[href]")` subset used by
`crawl_page` in scrap_wiki.py). -/
structure Page where
  nodes : List Node
  anchors : List String
  navAnchors : List String
deriving DecidableEq, Repr

/-- State of a scrap_pdf.py run: the `visited` set (in insertion
order), the log of fetch attempts, the contents of `PAGES_DIR`
(filename ↦ bytes), the success log of `save_html_as_pdf`, and stderr
messages. -/
structure CState where
  visited : List String
  fetched : List String
  files : List (String × List Nat)
  saved : List String
  errors : List String
deriving DecidableEq, Repr

/-- The filenames present on disk. -/
def fileNames (fs : List (String × List Nat)) : List String :=
  fs.map (fun f => f.1)

/-- Model of `save_html_as_pdf(url, html)`.  `render` is the
`pisa.CreatePDF` oracle on the cleaned document: `none` models
`result.err`, `some bytes` the rendered buffer.  The destination is
written only from the in-memory buffer after a successful render. -/
def save_html_as_pdf (render : List Node → Option (List Nat))
    (fetch : String → Option (Option String × List Nat))
    (url : String) (html : List Node) (s : CState) : CState :=
  let pdfFile := sanitize url "pdf"
  if pdfFile ∈ fileNames s.files then s
  else
    let safeHtml := clean_html fetch html
    match render safeHtml with
    | none =>
        { s with errors := s.errors ++ ["Error: PDF render failed for " ++ url] }
    | some bytes =>
        { s with files := s.files ++ [(pdfFile, bytes)],
                 saved := s.saved ++ [pdfFile] }

/-- Model of `crawl(url)`.  `net` is the page-fetch oracle (`none` = transport
error or non-2xx raised by `raise_for_status`); `fuel` bounds the
recursion depth (the Python recursion is unbounded; every theorem below
holds for all fuel). -/
def crawl (net : String → Option Page)
    (render : List Node → Option (List Nat))
    (fetch : String → Option (Option String × List Nat))
    (rootUrl : String) : Nat → String → CState → CState
  | 0, _, s => s
  | fuel + 1, url, s =>
    if url ∈ s.visited then s
    else
      let s1 : CState := { s with visited := s.visited ++ [url] }
      match net url with
      | none =>
          { s1 with fetched := s1.fetched ++ [url],
                    errors := s1.errors ++ ["Error: Failed to fetch " ++ url] }
      | some pg =>
          let s2 : CState := { s1 with fetched := s1.fetched ++ [url] }
          let s3 := save_html_as_pdf render fetch url pg.nodes s2
          pg.anchors.foldl (fun st a =>
            let href := stripFrag a
            if pyStartsWith (pyLower href) "mailto:" then st
            else
              let full := urljoin url href
              if is_internal rootUrl full then
                crawl net render fetch rootUrl fuel full st
              else st) s3

/-! ### Crawl entry point of scrap_wiki.py (lines 13–49) -/

/-- State of a scrap_wiki.py run: the `seen` set, fetch attempts, the
text files written by `save_text`, and whether an uncaught exception
has aborted the run (`crawl_page` has no try/except, so a fetch
failure propagates). -/
structure WState where
  seen : List String
  fetched : List String
  savedTxt : List String
  aborted : Bool
deriving DecidableEq, Repr

/-- The filename `save_text` writes for a URL:
`urlparse(url).path.strip("/").replace("/", "_") or "home"`, plus
`.txt`. -/
def wikiFileName (url : String) : String :=
  let p := String.mk ((stripSlashes (urlPath url)).data.map
    (fun c => if c == '/' then '_' else c))
  (if p = "" then "home" else p) ++ ".txt"

/-- Model of `save_text(url, soup)`: writes the text file unconditionally (no
existence check). -/
def save_text (url : String) (s : WState) : WState :=
  { s with savedTxt := s.savedTxt ++ [wikiFileName url] }

/-- Model of `crawl_page(url)`.  A failing `requests.get` /
`raise_for_status` raises; the uncaught exception is modelled by the
`aborted` flag, which short-circuits every remaining step of the
run. -/
def crawl_page (net : String → Option Page) (baseNetloc : String) :
    Nat → String → WState → WState
  | 0, _, s => s
  | fuel + 1, url, s =>
    if s.aborted then s
    else if url ∈ s.seen then s
    else
      let s1 : WState := { s with seen := s.seen ++ [url] }
      match net url with
      | none => { s1 with fetched := s1.fetched ++ [url], aborted := true }
      | some pg =>
          let s2 := save_text url { s1 with fetched := s1.fetched ++ [url] }
          pg.navAnchors.foldl (fun st a =>
            if st.aborted then st
            else
              let href := stripFrag a
              let full := urljoin url href
              if is_internal_wiki baseNetloc full && !(st.seen.contains full)
              then crawl_page net baseNetloc fuel full st
              else st) s2

/-! ### Release harvester (scrap_pdf.py lines 164–219) -/

/-- State of `download_release_pdfs`: the contents of `RELEASES_DIR`
(filename ↦ chunks written, in order), the running `count`, and the
printed messages. -/
structure HState where
  files : List (String × List String)
  count : Nat
  log : List String
deriving DecidableEq, Repr

/-- Resolution of one anchor `href` on the build-history page: a
`.pdf`-suffixed href is joined against the page URL; an href containing
`drive.google.com` goes through `get_drive_direct_link`; any other
anchor is skipped. -/
def resolveAnchor (buildHistory href : String) : Option String :=
  if pyEndsWith (pyLower href) ".pdf" then some (urljoin buildHistory href)
  else if containsSub "drive.google.com".data href.data then
    some (get_drive_direct_link href)
  else none

/-- The loop body of `download_release_pdfs` for one anchor.  `dnet` is
the streaming-download oracle: `none` models an exception from
`session.get` or the stream, `some (status, chunks)` a response with
its status code and streamed chunks. -/
def processAnchor (dnet : String → Option (Nat × List String))
    (buildHistory : String) (s : HState) (href : String) : HState :=
  match resolveAnchor buildHistory href with
  | none => s
  | some pdfUrl =>
    let dest := sanitize pdfUrl "pdf"
    if dest ∈ s.files.map (fun f => f.1) then s
    else
      match dnet pdfUrl with
      | none => { s with log := s.log ++ ["Error downloading " ++ pdfUrl] }
      | some (status, chunks) =>
          if status == 403 then
            { s with log := s.log ++ ["Skipping forbidden PDF: " ++ pdfUrl] }
          else
            let firstChunk := chunks.headD ""
            if !looks_like_pdf firstChunk then
              { s with log := s.log ++ ["Skipping non-PDF content at: " ++ pdfUrl] }
            else
              { s with files := s.files ++ [(dest, firstChunk :: chunks.tail)],
                       count := s.count + 1,
                       log := s.log ++ ["Downloaded: " ++ dest] }

/-- Model of `download_release_pdfs()`.  `index` is the fetch of the
build-history page itself (`none` = failure, logged and the pass
abandoned); on success it yields the `href`s of the page's anchors in
document order. -/
def download_release_pdfs (index : Option (List String))
    (dnet : String → Option (Nat × List String))
    (buildHistory : String) : HState :=
  match index with
  | none => ⟨[], 0, ["Error fetching release notes page"]⟩
  | some anchors => anchors.foldl (processAnchor dnet buildHistory) ⟨[], 0, []⟩

/-! ### Run invariants -/

/-- Invariant of a scrap_pdf.py crawl state: the fetch log has no
duplicates and every fetched URL is in the visited set. -/
def CInv (s : CState) : Prop :=
  s.fetched.Nodup ∧ ∀ u ∈ s.fetched, u ∈ s.visited

/-- Invariant of a scrap_wiki.py crawl state: the fetch log has no
duplicates and every fetched URL is in the seen set. -/
def WInv (s : WState) : Prop :=
  s.fetched.Nodup ∧ ∀ u ∈ s.fetched, u ∈ s.seen

end Scraper

namespace Scraper

/-! ## Helper lemmas -/

/-- A string that extends `pre` satisfies Python `startswith(pre)`. -/
theorem pyStartsWith_append (pre t : String) :
    pyStartsWith (pre ++ t) pre = true := by
  simp [pyStartsWith, String.data_append, List.take_left]

/-- Lemma: `hex8` always yields 8 characters. -/
theorem hex8_length (n : Nat) : (hex8 n).length = 8 := by
  simp [hex8]

/-- Lemma: `hexDigit` of a nibble is a lowercase hex character. -/
theorem hexDigit_mem (m : Nat) (h : m < 16) :
    hexDigit m ∈ "0123456789abcdef".data := by
  interval_cases m <;> decide

/-- Characters of `hex8` are lowercase hex characters. -/
theorem hex8_chars (n : Nat) : ∀ c ∈ hex8 n, c ∈ "0123456789abcdef".data := by
  intro c hc
  simp only [hex8, List.mem_map] at hc
  obtain ⟨i, _, rfl⟩ := hc
  exact hexDigit_mem _ (Nat.mod_lt _ (by norm_num))

/-- The hex digest has 40 characters, all lowercase hex. -/
theorem sha1hexBytes_spec (msg : List Nat) :
    (sha1hexBytes msg).data.length = 40 ∧
    ∀ c ∈ (sha1hexBytes msg).data, c ∈ "0123456789abcdef".data := by
  simp only [sha1hexBytes]
  constructor
  · simp [hex8_length]
  · intro c hc
    simp only [List.mem_append] at hc
    rcases hc with ((((hc | hc) | hc) | hc) | hc) <;> exact hex8_chars _ _ hc

/-- Frame lemma: `save_html_as_pdf` never touches the visited set or the fetch
log. -/
theorem save_html_as_pdf_frame (render : List Node → Option (List Nat))
    (fetch : String → Option (Option String × List Nat))
    (url : String) (html : List Node) (s : CState) :
    (save_html_as_pdf render fetch url html s).visited = s.visited ∧
    (save_html_as_pdf render fetch url html s).fetched = s.fetched := by
  simp only [save_html_as_pdf]
  split
  · exact ⟨rfl, rfl⟩
  · split <;> exact ⟨rfl, rfl⟩

/-- Fold a state-preserving property through `List.foldl`. -/
theorem foldl_pred {σ α : Type} {P : σ → Prop} {g : σ → α → σ}
    (hg : ∀ s a, P s → P (g s a)) :
    ∀ (l : List α) (s : σ), P s → P (l.foldl g s) := by
  intro l
  induction l with
  | nil => intro s h; simpa using h
  | cons a t iht => intro s h; exact iht (g s a) (hg s a h)

end Scraper

namespace Scraper

/-! ## Claim C2 -/

/-- C2 (counterexample): the claim asserts that both internal-host
predicates return `false` on `https://other.example.com/x` when the
root's host is `example.com`; the `endswith` variant of scrap_wiki.py
returns `true` there, because `other.example.com` ends with
`example.com`. -/
theorem is_internal_wiki_subdomain_cex :
    is_internal_wiki "example.com" "https://other.example.com/x" = true := by
  decide

/-- C2 (amended): for every root URL whose host is `example.com`, the
exact-match predicate of scrap_pdf.py classifies
`https://other.example.com/x` as external, while the `endswith`
predicate of scrap_wiki.py classifies it as internal; both classify
the host-less `/relative/path` as internal. -/
theorem is_internal_variants (rootUrl : String)
    (h : urlNetloc rootUrl = "example.com") :
    is_internal rootUrl "https://other.example.com/x" = false ∧
    is_internal rootUrl "/relative/path" = true ∧
    is_internal_wiki "example.com" "https://other.example.com/x" = true ∧
    is_internal_wiki "example.com" "/relative/path" = true := by
  have e1 : urlNetloc "https://other.example.com/x" = "other.example.com" := by
    decide
  have e2 : urlNetloc "/relative/path" = "" := by decide
  refine ⟨?_, ?_, by decide, by decide⟩
  · simp [is_internal, e1, h]
  · simp [is_internal, e2]

/-- C2 (witness for the amended theorem at root
`https://example.com/home`). -/
theorem is_internal_variants_witness :
    urlNetloc "https://example.com/home" = "example.com" ∧
    (is_internal "https://example.com/home" "https://other.example.com/x" = false ∧
     is_internal "https://example.com/home" "/relative/path" = true ∧
     is_internal_wiki "example.com" "https://other.example.com/x" = true ∧
     is_internal_wiki "example.com" "/relative/path" = true) :=
  ⟨by decide, is_internal_variants "https://example.com/home" (by decide)⟩

/-! ## Claim C7 -/

/-- C7 (counterexample): `sanitize` does not return the raw URL path's
non-alphanumeric runs collapsed to underscores followed by the hash
part: for `https://example.com/home` the path is `/home`, whose
collapsed form is `_home`, but the code strips slashes first and
produces `home_…`. -/
theorem sanitize_raw_path_slug_cex :
    sanitize "https://example.com/home" "pdf"
      ≠ collapseNonAlnum (urlPath "https://example.com/home") ++ "_" ++
        pyTake (sha1hex "https://example.com/home") 8 ++ ".pdf" := by
  decide

/-- C7 (amended): `sanitize` is a pure deterministic mapping from URL
to name: it returns the URL path stripped of leading and trailing
slashes with non-alphanumeric runs collapsed to underscores (with
`page` substituted when that is empty), followed by an underscore, the
first 8 hex characters of the SHA-1 hash of the full URL, and the
extension; the hash part always has exactly 8 lowercase hex
characters. -/
theorem sanitize_decomposition (url ext : String) :
    sanitize url ext
      = (if collapseNonAlnum (stripSlashes (urlPath url)) = "" then "page"
         else collapseNonAlnum (stripSlashes (urlPath url))) ++ "_" ++
        pyTake (sha1hex url) 8 ++ "." ++ ext ∧
    (pyTake (sha1hex url) 8).data.length = 8 ∧
    ∀ c ∈ (pyTake (sha1hex url) 8).data, c ∈ "0123456789abcdef".data := by
  refine ⟨rfl, ?_, ?_⟩
  · simp [pyTake, sha1hex, (sha1hexBytes_spec (strBytes url)).1]
  · intro c hc
    simp only [pyTake] at hc
    exact (sha1hexBytes_spec (strBytes url)).2 c (List.take_subset _ _ hc)

/-- C7 (witness for the amended theorem at a concrete URL). -/
theorem sanitize_decomposition_witness :
    sanitize "https://example.com/home" "pdf"
      = (if collapseNonAlnum (stripSlashes (urlPath "https://example.com/home"))
            = "" then "page"
         else collapseNonAlnum (stripSlashes (urlPath "https://example.com/home")))
        ++ "_" ++ pyTake (sha1hex "https://example.com/home") 8 ++ "." ++ "pdf" ∧
    (pyTake (sha1hex "https://example.com/home") 8).data.length = 8 ∧
    ∀ c ∈ (pyTake (sha1hex "https://example.com/home") 8).data,
      c ∈ "0123456789abcdef".data :=
  sanitize_decomposition "https://example.com/home" "pdf"

/-! ## Claim C8 -/

/-- C8: whenever `get_drive_direct_link`'s id extraction — the regex
search for a `/d/<id>` segment, falling back to the `id=` query
parameter — yields an id, the result is the direct-download form
`https://drive.google.com/uc?export=download&id=<id>`. -/
theorem get_drive_direct_link_direct_form (href fid : String)
    (h : findDId href.data = some fid ∨
      (findDId href.data = none ∧ qsFirst (urlQuery href) "id" = some fid)) :
    get_drive_direct_link href
      = "https://drive.google.com/uc?export=download&id=" ++ fid := by
  rcases h with h | ⟨h1, h2⟩
  · simp [get_drive_direct_link, h]
  · simp [get_drive_direct_link, h1, h2]

/-- C8 (witness at the claim's example
`https://drive.google.com/file/d/ABC123/view`). -/
theorem get_drive_direct_link_direct_form_witness :
    findDId "https://drive.google.com/file/d/ABC123/view".data = some "ABC123" ∧
    get_drive_direct_link "https://drive.google.com/file/d/ABC123/view"
      = "https://drive.google.com/uc?export=download&id=" ++ "ABC123" :=
  ⟨by decide,
   get_drive_direct_link_direct_form "https://drive.google.com/file/d/ABC123/view"
     "ABC123" (Or.inl (by decide))⟩

/-! ## Claim C10 -/

/-- C10: an href containing the drive host from which no id can be
extracted (no `/d/<id>` segment, no `id=` query parameter) is returned
unchanged by `get_drive_direct_link`. -/
theorem get_drive_direct_link_no_id (href : String)
    (_hhost : containsSub "drive.google.com".data href.data = true)
    (h1 : findDId href.data = none)
    (h2 : qsFirst (urlQuery href) "id" = none) :
    get_drive_direct_link href = href := by
  simp [get_drive_direct_link, h1, h2]

/-- C10 (witness at `https://drive.google.com/drive/my-drive`). -/
theorem get_drive_direct_link_no_id_witness :
    containsSub "drive.google.com".data
      "https://drive.google.com/drive/my-drive".data = true ∧
    get_drive_direct_link "https://drive.google.com/drive/my-drive"
      = "https://drive.google.com/drive/my-drive" :=
  ⟨by decide,
   get_drive_direct_link_no_id "https://drive.google.com/drive/my-drive"
     (by decide) (by decide) (by decide)⟩

/-! ## Claim C9 -/

/-- C9: when the HTML-to-PDF rendering of a not-yet-archived page
fails, `save_html_as_pdf` only logs the failure — the filesystem is
untouched, so no partial file is left on disk; and conversely any run
of `save_html_as_pdf` that changes the filesystem had a successful
render, whose buffer is what gets written. -/
theorem save_html_as_pdf_render_failure
    (render : List Node → Option (List Nat))
    (fetch : String → Option (Option String × List Nat))
    (url : String) (html : List Node) (s : CState)
    (hnew : sanitize url "pdf" ∉ fileNames s.files)
    (hfail : render (clean_html fetch html) = none) :
    save_html_as_pdf render fetch url html s
      = { s with errors := s.errors ++ ["Error: PDF render failed for " ++ url] } ∧
    ∀ (render' : List Node → Option (List Nat)) fetch' url' html' s',
      (save_html_as_pdf render' fetch' url' html' s').files ≠ s'.files →
      ∃ bytes, render' (clean_html fetch' html') = some bytes ∧
        (save_html_as_pdf render' fetch' url' html' s').files
          = s'.files ++ [(sanitize url' "pdf", bytes)] := by
  constructor
  · simp [save_html_as_pdf, hnew, hfail]
  · intro render' fetch' url' html' s' hch
    by_cases hex : sanitize url' "pdf" ∈ fileNames s'.files
    · exact absurd (by simp [save_html_as_pdf, hex]) hch
    · cases hr : render' (clean_html fetch' html') with
      | none => exact absurd (by simp [save_html_as_pdf, hex, hr]) hch
      | some bytes => exact ⟨bytes, rfl, by simp [save_html_as_pdf, hex, hr]⟩

/-- C9 (witness: a render failure on a fresh page leaves the state
unchanged except for the log). -/
theorem save_html_as_pdf_render_failure_witness :
    sanitize "https://s/p" "pdf" ∉ fileNames ([] : List (String × List Nat)) ∧
    save_html_as_pdf (fun _ => none) (fun _ => none) "https://s/p" []
        ⟨[], [], [], [], []⟩
      = { visited := [], fetched := [], files := [], saved := [],
          errors := ["Error: PDF render failed for " ++ "https://s/p"] } :=
  ⟨by decide,
   (save_html_as_pdf_render_failure (fun _ => none) (fun _ => none)
     "https://s/p" [] ⟨[], [], [], [], []⟩ (by decide) rfl).1⟩

/-! ## Claim C5 -/

/-- C5: a release download whose first streamed chunk does not start
with `%PDF` is rejected before any write: the filesystem and the count
are unchanged and the anchor is reported as skipped; and conversely
any anchor that does write a file had a first chunk passing the
signature check, and what is written starts with that verified
chunk. -/
theorem processAnchor_rejects_non_pdf
    (dnet : String → Option (Nat × List String))
    (bh : String) (s : HState) (href pdfUrl : String)
    (status : Nat) (chunks : List String)
    (hres : resolveAnchor bh href = some pdfUrl)
    (hnew : sanitize pdfUrl "pdf" ∉ s.files.map (fun f => f.1))
    (hnet : dnet pdfUrl = some (status, chunks))
    (h403 : status ≠ 403)
    (hsig : looks_like_pdf (chunks.headD "") = false) :
    processAnchor dnet bh s href
      = { s with log := s.log ++ ["Skipping non-PDF content at: " ++ pdfUrl] } ∧
    ∀ (dnet' : String → Option (Nat × List String)) bh' s' href',
      (processAnchor dnet' bh' s' href').files ≠ s'.files →
      ∃ u st cs, resolveAnchor bh' href' = some u ∧ dnet' u = some (st, cs) ∧
        looks_like_pdf (cs.headD "") = true ∧
        (processAnchor dnet' bh' s' href').files
          = s'.files ++ [(sanitize u "pdf", cs.headD "" :: cs.tail)] := by
  constructor
  · have hsig' : looks_like_pdf (chunks.head?.getD "") = false := by
      simpa using hsig
    simp [processAnchor, hres, hnew, hnet, h403, hsig']
  · intro dnet' bh' s' href' hch
    cases hr : resolveAnchor bh' href' with
    | none => exact absurd (by simp [processAnchor, hr]) hch
    | some u =>
      by_cases hex : sanitize u "pdf" ∈ s'.files.map (fun f => f.1)
      · exact absurd (by simp [processAnchor, hr, hex]) hch
      · cases hn : dnet' u with
        | none => exact absurd (by simp [processAnchor, hr, hex, hn]) hch
        | some r =>
          obtain ⟨st, cs⟩ := r
          by_cases h4 : st = 403
          · exact absurd (by simp [processAnchor, hr, hex, hn, h4]) hch
          · cases hp : looks_like_pdf (cs.headD "") with
            | false =>
                have hp' : looks_like_pdf (cs.head?.getD "") = false := by
                  simpa using hp
                exact absurd (by simp [processAnchor, hr, hex, hn, h4, hp']) hch
            | true =>
                have hp' : looks_like_pdf (cs.head?.getD "") = true := by
                  simpa using hp
                exact ⟨u, st, cs, rfl, hn, hp,
                  by simp [processAnchor, hr, hex, hn, h4, hp']⟩

/-- C5 (witness: first chunk `<html>login</html>` is rejected, nothing
written, nothing counted). -/
theorem processAnchor_rejects_non_pdf_witness :
    resolveAnchor "https://s/bh" "doc.pdf" = some "https://s/doc.pdf" ∧
    looks_like_pdf ((["<html>login</html>"] : List String).headD "") = false ∧
    processAnchor (fun _ => some (200, ["<html>login</html>"])) "https://s/bh"
        ⟨[], 0, []⟩ "doc.pdf"
      = { files := [], count := 0,
          log := [] ++ ["Skipping non-PDF content at: " ++ "https://s/doc.pdf"] } :=
  ⟨by decide, by decide,
   (processAnchor_rejects_non_pdf (fun _ => some (200, ["<html>login</html>"]))
     "https://s/bh" ⟨[], 0, []⟩ "doc.pdf" "https://s/doc.pdf" 200
     ["<html>login</html>"] (by decide) (by decide) rfl (by decide) (by decide)).1⟩

end Scraper

namespace Scraper

/-! ## Claim C6 -/

/-- A string whose data extends `pre`'s data satisfies
`startswith(pre)`. -/
theorem pyStartsWith_of_data (s pre : String) (l : List Char)
    (h : s.data = pre.data ++ l) : pyStartsWith s pre = true := by
  simp [pyStartsWith, h, List.take_left]

/-- C6: `clean_html` leaves no network-dependent image reference:
every `img` in the output that has a `src` carries a `data:` URI;
an `img` whose non-`data:` `src` fetch succeeds is rewritten to a
base64 data URI carrying the response's declared content type
(defaulting to `image/png`), and one whose fetch fails is removed
from the document entirely. -/
theorem clean_html_self_contained :
    (∀ (fetch : String → Option (Option String × List Nat)) (doc : List Node)
        (n : Node), n ∈ clean_html fetch doc → ∀ src, n = Node.img (some src) →
          pyStartsWith src "data:" = true) ∧
    (∀ (fetch : String → Option (Option String × List Nat))
        (pre post : List Node) (src : String) (ct : Option String)
        (body : List Nat), pyStartsWith src "data:" = false →
        fetch src = some (ct, body) →
        clean_html fetch (pre ++ Node.img (some src) :: post)
          = clean_html fetch pre ++
            Node.img (some ("data:" ++ ct.getD "image/png" ++ ";base64," ++
              base64encode body)) :: clean_html fetch post) ∧
    (∀ (fetch : String → Option (Option String × List Nat))
        (pre post : List Node) (src : String),
        pyStartsWith src "data:" = false → fetch src = none →
        clean_html fetch (pre ++ Node.img (some src) :: post)
          = clean_html fetch pre ++ clean_html fetch post) := by
  refine ⟨?_, ?_, ?_⟩
  · intro fetch doc n hn src hsrc
    subst hsrc
    simp only [clean_html] at hn
    obtain ⟨a, _ha, hfa⟩ := List.mem_filterMap.mp hn
    cases a with
    | script => simp [cleanNode] at hfa
    | noscript => simp [cleanNode] at hfa
    | comment s => simp [cleanNode] at hfa
    | text s => simp [cleanNode] at hfa
    | inputTag ty =>
        simp only [cleanNode] at hfa
        split at hfa <;> simp at hfa
    | stylesheetLink href =>
        simp only [cleanNode] at hfa
        split at hfa <;> simp at hfa
    | img osrc =>
      cases osrc with
      | none => simp [cleanNode] at hfa
      | some s0 =>
        by_cases hd : pyStartsWith s0 "data:" = true
        · simp only [cleanNode, hd, if_true, Option.some.injEq,
            Node.img.injEq] at hfa
          rw [← hfa]
          exact hd
        · have hd' : pyStartsWith s0 "data:" = false := by
            simpa using hd
          simp only [cleanNode, hd', Bool.false_eq_true, if_false] at hfa
          cases hfetch : fetch s0 with
          | none => rw [hfetch] at hfa; simp at hfa
          | some p =>
            obtain ⟨ct, body⟩ := p
            rw [hfetch] at hfa
            simp only [Option.some.injEq, Node.img.injEq] at hfa
            rw [← hfa]
            exact pyStartsWith_of_data _ _
              ((ct.getD "image/png").data ++ ";base64,".data ++
                (base64encode body).data)
              (by simp [String.data_append])
  · intro fetch pre post src ct body h1 h2
    simp [clean_html, cleanNode, List.filterMap_append, List.filterMap_cons,
      h1, h2]
  · intro fetch pre post src h1 h2
    simp [clean_html, cleanNode, List.filterMap_append, List.filterMap_cons,
      h1, h2]

/-- C6 (witness: a retrievable image becomes a data URI, and the
sibling `script` node is dropped, in a concrete document). -/
theorem clean_html_self_contained_witness :
    pyStartsWith "http://x/a.png" "data:" = false ∧
    clean_html
        (fun u => if u == "http://x/a.png"
          then some (some "image/png", [1, 2, 3]) else none)
        ([] ++ Node.img (some "http://x/a.png") :: [Node.script])
      = clean_html
          (fun u => if u == "http://x/a.png"
            then some (some "image/png", [1, 2, 3]) else none) [] ++
        Node.img (some ("data:" ++ (some "image/png").getD "image/png" ++
          ";base64," ++ base64encode [1, 2, 3])) ::
        clean_html
          (fun u => if u == "http://x/a.png"
            then some (some "image/png", [1, 2, 3]) else none) [Node.script] :=
  ⟨by decide,
   clean_html_self_contained.2.1
     (fun u => if u == "http://x/a.png"
       then some (some "image/png", [1, 2, 3]) else none)
     [] [Node.script] "http://x/a.png" (some "image/png") [1, 2, 3]
     (by decide) (by decide)⟩

end Scraper

namespace Scraper

/-! ## Crawl invariants (shared by C1, C3, C4) -/

/-- Visited set and fetch log of `crawl` only grow. -/
theorem crawl_mono (net : String → Option Page)
    (render : List Node → Option (List Nat))
    (fetch : String → Option (Option String × List Nat)) (rootUrl : String) :
    ∀ (fuel : Nat) (url : String) (s : CState),
      s.visited ⊆ (crawl net render fetch rootUrl fuel url s).visited ∧
      s.fetched ⊆ (crawl net render fetch rootUrl fuel url s).fetched := by
  intro fuel
  induction fuel with
  | zero =>
      intro url s
      simp only [crawl]
      exact ⟨fun _ h => h, fun _ h => h⟩
  | succ fuel ih =>
      intro url s
      by_cases hv : url ∈ s.visited
      · simp only [crawl, hv, if_true]
        exact ⟨fun _ h => h, fun _ h => h⟩
      · cases hnet : net url with
        | none =>
            simp only [crawl, hv, if_false, hnet]
            exact ⟨fun u h => List.mem_append.mpr (Or.inl h),
                   fun u h => List.mem_append.mpr (Or.inl h)⟩
        | some pg =>
            simp only [crawl, hv, if_false, hnet]
            have hbase :
                s.visited ⊆ (save_html_as_pdf render fetch url pg.nodes
                  { s with visited := s.visited ++ [url],
                           fetched := s.fetched ++ [url] }).visited ∧
                s.fetched ⊆ (save_html_as_pdf render fetch url pg.nodes
                  { s with visited := s.visited ++ [url],
                           fetched := s.fetched ++ [url] }).fetched := by
              rw [(save_html_as_pdf_frame render fetch url pg.nodes _).1,
                (save_html_as_pdf_frame render fetch url pg.nodes _).2]
              exact ⟨fun u h => List.mem_append.mpr (Or.inl h),
                     fun u h => List.mem_append.mpr (Or.inl h)⟩
            refine foldl_pred
              (P := fun st : CState => s.visited ⊆ st.visited ∧ s.fetched ⊆ st.fetched)
              ?_ pg.anchors _ hbase
            intro st a hP
            dsimp only
            split
            · exact hP
            · split
              · exact ⟨hP.1.trans (ih _ st).1, hP.2.trans (ih _ st).2⟩
              · exact hP

/-- Lemma: `crawl` preserves the fetched-at-most-once invariant. -/
theorem crawl_inv (net : String → Option Page)
    (render : List Node → Option (List Nat))
    (fetch : String → Option (Option String × List Nat)) (rootUrl : String) :
    ∀ (fuel : Nat) (url : String) (s : CState),
      CInv s → CInv (crawl net render fetch rootUrl fuel url s) := by
  intro fuel
  induction fuel with
  | zero => intro url s hs; simpa only [crawl] using hs
  | succ fuel ih =>
      intro url s hs
      by_cases hv : url ∈ s.visited
      · simpa only [crawl, hv, if_true] using hs
      · cases hnet : net url with
        | none =>
            simp only [crawl, hv, if_false, hnet]
            refine ⟨?_, ?_⟩
            · simpa [List.nodup_append, hs.1] using fun h => hv (hs.2 url h)
            · intro u hu
              rcases List.mem_append.mp hu with h | h
              · exact List.mem_append.mpr (Or.inl (hs.2 u h))
              · exact List.mem_append.mpr (Or.inr h)
        | some pg =>
            simp only [crawl, hv, if_false, hnet]
            have hbase : CInv (save_html_as_pdf render fetch url pg.nodes
                { s with visited := s.visited ++ [url],
                         fetched := s.fetched ++ [url] }) := by
              refine ⟨?_, ?_⟩
              · rw [(save_html_as_pdf_frame render fetch url pg.nodes _).2]
                simpa [List.nodup_append, hs.1] using
                  fun h => hv (hs.2 url h)
              · rw [(save_html_as_pdf_frame render fetch url pg.nodes _).1,
                  (save_html_as_pdf_frame render fetch url pg.nodes _).2]
                intro u hu
                rcases List.mem_append.mp hu with h | h
                · exact List.mem_append.mpr (Or.inl (hs.2 u h))
                · exact List.mem_append.mpr (Or.inr h)
            refine foldl_pred (P := CInv) ?_ pg.anchors _ hbase
            intro st a hP
            dsimp only
            split
            · exact hP
            · split
              · exact ih _ st hP
              · exact hP

/-- Seen set and fetch log of `crawl_page` only grow. -/
theorem crawl_page_mono (net : String → Option Page) (baseNetloc : String) :
    ∀ (fuel : Nat) (url : String) (s : WState),
      s.seen ⊆ (crawl_page net baseNetloc fuel url s).seen ∧
      s.fetched ⊆ (crawl_page net baseNetloc fuel url s).fetched := by
  intro fuel
  induction fuel with
  | zero =>
      intro url s
      simp only [crawl_page]
      exact ⟨fun _ h => h, fun _ h => h⟩
  | succ fuel ih =>
      intro url s
      by_cases ha : s.aborted
      · simp only [crawl_page, ha, if_true]
        exact ⟨fun _ h => h, fun _ h => h⟩
      · by_cases hv : url ∈ s.seen
        · simp only [crawl_page, ha, hv, if_false, if_true]
          exact ⟨fun _ h => h, fun _ h => h⟩
        · cases hnet : net url with
          | none =>
              simp only [crawl_page, ha, hv, if_false, hnet]
              exact ⟨fun u h => List.mem_append.mpr (Or.inl h),
                     fun u h => List.mem_append.mpr (Or.inl h)⟩
          | some pg =>
              simp only [crawl_page, ha, hv, if_false, hnet, save_text]
              refine foldl_pred
                (P := fun st : WState => s.seen ⊆ st.seen ∧ s.fetched ⊆ st.fetched)
                ?_ pg.navAnchors _
                ⟨fun u h => List.mem_append.mpr (Or.inl h),
                 fun u h => List.mem_append.mpr (Or.inl h)⟩
              intro st a hP
              dsimp only
              split
              · exact hP
              · split
                · exact ⟨hP.1.trans (ih _ st).1, hP.2.trans (ih _ st).2⟩
                · exact hP

/-- Lemma: `crawl_page` preserves the fetched-at-most-once invariant. -/
theorem crawl_page_inv (net : String → Option Page) (baseNetloc : String) :
    ∀ (fuel : Nat) (url : String) (s : WState),
      WInv s → WInv (crawl_page net baseNetloc fuel url s) := by
  intro fuel
  induction fuel with
  | zero => intro url s hs; simpa only [crawl_page] using hs
  | succ fuel ih =>
      intro url s hs
      by_cases ha : s.aborted
      · simpa only [crawl_page, ha, if_true] using hs
      · by_cases hv : url ∈ s.seen
        · simpa only [crawl_page, ha, hv, if_false, if_true] using hs
        · cases hnet : net url with
          | none =>
              simp only [crawl_page, ha, hv, if_false, hnet]
              refine ⟨?_, ?_⟩
              · simpa [List.nodup_append, hs.1] using
                  fun h => hv (hs.2 url h)
              · intro u hu
                rcases List.mem_append.mp hu with h | h
                · exact List.mem_append.mpr (Or.inl (hs.2 u h))
                · exact List.mem_append.mpr (Or.inr h)
          | some pg =>
              simp only [crawl_page, ha, hv, if_false, hnet, save_text]
              have hbase : WInv
                  { s with seen := s.seen ++ [url],
                           fetched := s.fetched ++ [url],
                           savedTxt := s.savedTxt ++ [wikiFileName url] } := by
                refine ⟨?_, ?_⟩
                · simpa [List.nodup_append, hs.1] using
                    fun h => hv (hs.2 url h)
                · intro u hu
                  rcases List.mem_append.mp hu with h | h
                  · exact List.mem_append.mpr (Or.inl (hs.2 u h))
                  · exact List.mem_append.mpr (Or.inr h)
              refine foldl_pred (P := WInv) ?_ pg.navAnchors _ hbase
              intro st a hP
              dsimp only
              split
              · exact hP
              · split
                · exact ih _ st hP
                · exact hP

end Scraper

namespace Scraper

/-! ## Claim C1 -/

/-- C1: in any run of either crawler — any network behaviour, any
recursion bound, any pre-existing files on disk — the list of fetch
attempts has no duplicates: both `crawl` and `crawl_page` check the
visited set and return before fetching a URL already present, and
record a URL as visited before fetching it, so no URL is fetched twice
in one run. -/
theorem crawl_fetches_each_url_at_most_once
    (net : String → Option Page) (render : List Node → Option (List Nat))
    (fetch : String → Option (Option String × List Nat))
    (rootUrl baseNetloc : String) (fuel fuel' : Nat) (url url' : String)
    (files : List (String × List Nat)) :
    (crawl net render fetch rootUrl fuel url
      ⟨[], [], files, [], []⟩).fetched.Nodup ∧
    (crawl_page net baseNetloc fuel' url'
      ⟨[], [], [], false⟩).fetched.Nodup :=
  ⟨(crawl_inv net render fetch rootUrl fuel url ⟨[], [], files, [], []⟩
      ⟨List.nodup_nil, by simp⟩).1,
   (crawl_page_inv net baseNetloc fuel' url' ⟨[], [], [], false⟩
      ⟨List.nodup_nil, by simp⟩).1⟩

/-! ## Claim C3 -/

/-- C3 (counterexample): a URL whose destination file already exists
on disk at the start of the run is still fetched by `crawl` — the
fetch happens before `save_html_as_pdf` consults the filesystem, so
only the conversion is skipped, not the fetch. -/
theorem crawl_refetches_existing_file_cex :
    sanitize "https://site/a" "pdf"
      ∈ fileNames [(sanitize "https://site/a" "pdf", [9])] ∧
    (crawl (fun u => if u == "https://site/a" then some ⟨[], [], []⟩ else none)
        (fun _ => some [37]) (fun _ => none) "https://site/a" 2 "https://site/a"
        ⟨[], [], [(sanitize "https://site/a" "pdf", [9])], [], []⟩).fetched
      = ["https://site/a"] := by
  constructor
  · simp [fileNames]
  · decide

/-- C3 (amended): an already-existing destination file causes the
conversion to be skipped entirely — `save_html_as_pdf` returns with no
state change — but the URL is still fetched by the crawl (the page is
needed for link discovery); only the clean/render/write steps are
skipped. -/
theorem existing_file_skips_conversion_not_fetch
    (net : String → Option Page) (render : List Node → Option (List Nat))
    (fetch : String → Option (Option String × List Nat))
    (rootUrl url : String) (html : List Node) (fuel : Nat) (s : CState)
    (pg : Page)
    (hfile : sanitize url "pdf" ∈ fileNames s.files)
    (hv : url ∉ s.visited) (hnet : net url = some pg) :
    save_html_as_pdf render fetch url html s = s ∧
    url ∈ (crawl net render fetch rootUrl (fuel + 1) url s).fetched := by
  constructor
  · simp [save_html_as_pdf, hfile]
  · simp only [crawl, hv, if_false, hnet]
    have hbase : url ∈ (save_html_as_pdf render fetch url pg.nodes
        { s with visited := s.visited ++ [url],
                 fetched := s.fetched ++ [url] }).fetched := by
      rw [(save_html_as_pdf_frame render fetch url pg.nodes _).2]
      exact List.mem_append.mpr (Or.inr (List.mem_singleton.mpr rfl))
    refine foldl_pred (P := fun st : CState => url ∈ st.fetched) ?_
      pg.anchors _ hbase
    intro st a hP
    dsimp only
    split
    · exact hP
    · split
      · exact (crawl_mono net render fetch rootUrl fuel _ st).2 hP
      · exact hP

/-- C3 (witness for the amended theorem, on a one-page site whose
destination file already exists). -/
theorem existing_file_skips_conversion_not_fetch_witness :
    sanitize "https://site/a" "pdf"
      ∈ fileNames [(sanitize "https://site/a" "pdf", [9])] ∧
    (save_html_as_pdf (fun _ => some [37]) (fun _ => none) "https://site/a" []
        ⟨[], [], [(sanitize "https://site/a" "pdf", [9])], [], []⟩
      = ⟨[], [], [(sanitize "https://site/a" "pdf", [9])], [], []⟩ ∧
     "https://site/a" ∈ (crawl
        (fun u => if u == "https://site/a" then some ⟨[], [], []⟩ else none)
        (fun _ => some [37]) (fun _ => none) "https://site/a" (1 + 1)
        "https://site/a"
        ⟨[], [], [(sanitize "https://site/a" "pdf", [9])], [], []⟩).fetched) :=
  ⟨by simp [fileNames],
   existing_file_skips_conversion_not_fetch
     (fun u => if u == "https://site/a" then some ⟨[], [], []⟩ else none)
     (fun _ => some [37]) (fun _ => none) "https://site/a" "https://site/a"
     [] 1 ⟨[], [], [(sanitize "https://site/a" "pdf", [9])], [], []⟩
     ⟨[], [], []⟩ (by simp [fileNames]) (by simp) (by decide)⟩

/-! ## Claim C4 -/

/-- C4 (counterexample): the claim asserts that a fetch failure is
never fatal for either entry point, but `crawl_page` of scrap_wiki.py
has no exception handler: with a root page linking to `/a` (whose
fetch fails) and `/b`, the run aborts at `/a` and the sibling `/b` is
never fetched. -/
theorem crawl_page_fetch_failure_fatal_cex :
    (crawl_page
      (fun u =>
        if u == "https://s/r" then some ⟨[], [], ["https://s/a", "https://s/b"]⟩
        else if u == "https://s/b" then some ⟨[], [], []⟩
        else none)
      "s" 3 "https://s/r" ⟨[], [], [], false⟩).aborted = true ∧
    "https://s/b" ∉ (crawl_page
      (fun u =>
        if u == "https://s/r" then some ⟨[], [], ["https://s/a", "https://s/b"]⟩
        else if u == "https://s/b" then some ⟨[], [], []⟩
        else none)
      "s" 3 "https://s/r" ⟨[], [], [], false⟩).fetched := by
  decide

/-- C4 (amended): in scrap_pdf.py, `crawl` handles a failed fetch by
logging the error and returning without descending from that node —
the state changes by exactly the visited mark, the fetch attempt and
the log line, and the traversal continues (in a concrete run where
`/a` fails, the sibling `/b` is still fetched and the run completes).
In scrap_wiki.py, `crawl_page` does not catch fetch errors: the
exception propagates and aborts the whole run. -/
theorem crawl_fetch_failure_nonfatal
    (net : String → Option Page) (render : List Node → Option (List Nat))
    (fetch : String → Option (Option String × List Nat))
    (rootUrl url : String) (fuel : Nat) (s : CState)
    (hv : url ∉ s.visited) (hnet : net url = none) :
    (crawl net render fetch rootUrl (fuel + 1) url s
      = { s with visited := s.visited ++ [url],
                 fetched := s.fetched ++ [url],
                 errors := s.errors ++ ["Error: Failed to fetch " ++ url] }) ∧
    (crawl
        (fun u =>
          if u == "https://s/r" then some ⟨[], ["https://s/a", "https://s/b"], []⟩
          else if u == "https://s/b" then some ⟨[], [], []⟩
          else none)
        (fun _ => some [37]) (fun _ => none) "https://s/r" 10 "https://s/r"
        ⟨[], [], [], [], []⟩).fetched
      = ["https://s/r", "https://s/a", "https://s/b"] ∧
    (crawl
        (fun u =>
          if u == "https://s/r" then some ⟨[], ["https://s/a", "https://s/b"], []⟩
          else if u == "https://s/b" then some ⟨[], [], []⟩
          else none)
        (fun _ => some [37]) (fun _ => none) "https://s/r" 10 "https://s/r"
        ⟨[], [], [], [], []⟩).errors
      = ["Error: Failed to fetch " ++ "https://s/a"] := by
  refine ⟨?_, by decide, by decide⟩
  simp [crawl, hv, hnet]

/-- C4 (witness for the amended theorem, on a fresh state with a
network that fails every fetch). -/
theorem crawl_fetch_failure_nonfatal_witness :
    ("https://u" ∉ (⟨[], [], [], [], []⟩ : CState).visited) ∧
    crawl (fun _ => none) (fun _ => none) (fun _ => none) "https://r" (0 + 1)
        "https://u" ⟨[], [], [], [], []⟩
      = { visited := [] ++ ["https://u"], fetched := [] ++ ["https://u"],
          files := [], saved := [],
          errors := [] ++ ["Error: Failed to fetch " ++ "https://u"] } :=
  ⟨by simp,
   (crawl_fetch_failure_nonfatal (fun _ => none) (fun _ => none)
     (fun _ => none) "https://r" "https://u" 0 ⟨[], [], [], [], []⟩
     (by simp) rfl).1⟩

end Scraper
